import Mathlib

/-!
Verification development for the CS224W course scraper (`scrape.py`).

The script fetches one course schedule page, and for every table row derives a
directory slug from the row description, then downloads the linked artifacts of
three buckets (slides / reading / homework) beneath it.

Strings are modelled as `List Char`.  Python `\d`, `\s` and `\w` are modelled at
ASCII granularity (all inputs of the program are ASCII); `str.lower` is modelled
by `Char.toLower`, which agrees with Python on ASCII.
-/

namespace Scrape

/-- ASCII model of Python's `str.isspace` / regex `\s` character class. -/
def pyIsSpace (c : Char) : Bool :=
  c == ' ' || c == '\t' || c == '\n' || c == '\r' || c == '\x0b' || c == '\x0c'

/-- `re.sub(r'^(\d+)\.\s*', r'\1-', s)` (scrape.py line 81): when the string
starts with a maximal nonempty digit run followed by a literal dot, replace the
dot and the following whitespace run by a single hyphen; otherwise unchanged. -/
def subOrdinal (s : List Char) : List Char :=
  let ds := s.takeWhile Char.isDigit
  let rest := s.dropWhile Char.isDigit
  if ds.isEmpty then s
  else
    match rest with
    | '.' :: r => ds ++ '-' :: r.dropWhile pyIsSpace
    | _ => s

/-- Helper for the `\[.*?]` matcher: the suffix just after the first `]` that
occurs before any newline, `none` when no such `]` exists (`.` in the Python
pattern does not match `\n`). -/
def splitAtClose : List Char → Option (List Char)
  | [] => none
  | c :: cs => if c == ']' then some cs else if c == '\n' then none else splitAtClose cs

/-- Fuelled worker for `re.sub(r'\[.*?]', '', s)`: scan left to right; at a `[`
with a matching same-line `]`, drop the bracketed span and continue after it;
every other character is kept.  The fuel only bounds the recursion; `s.length`
steps always suffice. -/
def removeBracketsAux : Nat → List Char → List Char
  | 0, s => s
  | _ + 1, [] => []
  | fuel + 1, c :: cs =>
    if c == '[' then
      match splitAtClose cs with
      | some rest => removeBracketsAux fuel rest
      | none => c :: removeBracketsAux fuel cs
    else c :: removeBracketsAux fuel cs

/-- `re.sub(r'\[.*?]', '', s)` (scrape.py line 82). -/
def removeBrackets (s : List Char) : List Char := removeBracketsAux s.length s

/-- Python `str.strip()` (ASCII whitespace model). -/
def pyStrip (s : List Char) : List Char :=
  ((s.dropWhile pyIsSpace).reverse.dropWhile pyIsSpace).reverse

/-- The slug derivation of `process_row` (scrape.py lines 81-83): ordinal
rewrite, bracketed-annotation removal, newline to space, strip, `/` to `-`,
space to `_`, lowercase — applied in exactly this order. -/
def slug (s : List Char) : List Char :=
  let s1 := subOrdinal s
  let s2 := removeBrackets s1
  let s3 := s2.map (fun c => if c == '\n' then ' ' else c)
  let s4 := pyStrip s3
  let s5 := s4.map (fun c => if c == '/' then '-' else c)
  let s6 := s5.map (fun c => if c == ' ' then '_' else c)
  s6.map Char.toLower

/-- The description used by the spec's slug example. -/
def demoDescription : List Char :=
  ("3. Traditional Methods [video]\nfor ML on Graphs").toList

end Scrape

namespace Scrape

/-! ## Filename and URL helpers (`pathlib.Path` / `urllib.parse.urlsplit`) -/

/-- Split a string at its last `.`: `some (before, fromDot)` where `fromDot`
starts at the last dot, `none` when the string has no dot. -/
def lastDotSplit : List Char → Option (List Char × List Char)
  | [] => none
  | c :: cs =>
    match lastDotSplit cs with
    | some (b, d) => some (c :: b, d)
    | none => if c == '.' then some ([], '.' :: cs) else none

/-- `pathlib`'s `PurePath.suffix` applied to a final component: the part from
the last dot, except that a leading dot (hidden file) or a trailing dot yields
the empty suffix (CPython: index `i` of the last dot must satisfy
`0 < i < len(name) - 1`). -/
def nameSuffix (name : List Char) : List Char :=
  match lastDotSplit name with
  | some (b, d) => if !b.isEmpty && 2 ≤ d.length then d else []
  | none => []

/-- `pathlib`'s `PurePath.with_suffix` applied to a final component: replace a
nonempty suffix, append when there is none. -/
def withSuffixName (name suf : List Char) : List Char :=
  match lastDotSplit name with
  | some (b, d) => if !b.isEmpty && 2 ≤ d.length then b ++ suf else name ++ suf
  | none => name ++ suf

/-- Split a string on a separator character (all pieces, empty ones included). -/
def splitCh (sep : Char) (s : List Char) : List (List Char) :=
  s.foldr
    (fun c acc =>
      match acc with
      | cur :: rest => if c == sep then [] :: cur :: rest else (c :: cur) :: rest
      | [] => [[c]])
    [[]]

/-- The components `pathlib` keeps from a string: split on `/`, dropping empty
segments and `.` segments. -/
def pathSegs (p : List Char) : List (List Char) :=
  (splitCh '/' p).filter (fun seg => !seg.isEmpty && !(seg == ['.']))

/-- `pathlib`'s `Path(p).name`: the last kept component, `""` when none. -/
def pyPathName (p : List Char) : List Char := ((pathSegs p).getLast?).getD []

/-- `Path(p).suffix`: the suffix of `Path(p).name`. -/
def pyPathSuffix (p : List Char) : List Char := nameSuffix (pyPathName p)

/-- The suffix of what follows the first occurrence of `pat`, `none` when `pat`
is not a substring. -/
def afterSub (pat : List Char) : List Char → Option (List Char)
  | [] => if pat.isEmpty then some [] else none
  | c :: cs =>
    if (c :: cs).take pat.length == pat then some ((c :: cs).drop pat.length)
    else afterSub pat cs

/-- Python's substring test `pat in s`. -/
def isSubstr (pat s : List Char) : Bool := (afterSub pat s).isSome

/-- `urlsplit(u).path`, modelled for the URLs this program handles: when the
string contains `://`, skip the scheme and the authority (up to the next `/`,
`?` or `#`); the path then extends up to the first `?` or `#`. -/
def urlsplitPath (u : List Char) : List Char :=
  let rest :=
    match afterSub (("://").toList) u with
    | some r => r.dropWhile (fun c => !(c == '/') && !(c == '?') && !(c == '#'))
    | none => u
  rest.takeWhile (fun c => !(c == '?') && !(c == '#'))

/-- The basename of a URL's path component: `Path(urlsplit(u).path).name`. -/
def urlPathBase (u : List Char) : List Char := pyPathName (urlsplitPath u)

/-! ## The homework colab-link rewrite (`GID_PAT`, scrape.py lines 102-120) -/

/-- ASCII model of the regex character class `[\w-]`. -/
def isWordChar (c : Char) : Bool := c.isAlphanum || c == '_' || c == '-'

/-- Maximal runs of `[\w-]` characters, left to right (`cur` is the current
run, reversed). -/
def gidRunsAux : List Char → List Char → List (List Char)
  | cur, [] => if cur.isEmpty then [] else [cur.reverse]
  | cur, c :: cs =>
    if isWordChar c then gidRunsAux (c :: cur) cs
    else if cur.isEmpty then gidRunsAux [] cs
    else cur.reverse :: gidRunsAux [] cs

/-- `GID_PAT.findall(s)` for `GID_PAT = re.compile(r"[\w-]{26,}")` (scrape.py
line 20): with a greedy bounded repetition, `findall` returns exactly the
maximal `[\w-]` runs of length at least 26, in order. -/
def gidFindall (s : List Char) : List (List Char) :=
  (gidRunsAux [] s).filter (fun r => 26 ≤ r.length)

/-- The notebook-hosting domain marker (scrape.py line 107). -/
def colabMarker : List Char := ("colab.research.google.com").toList

/-- The rewritten direct-download URL (scrape.py line 113). -/
def colabUrl (g : List Char) : List Char :=
  ("https://docs.google.com/uc?export=download&id=").toList ++ g

/-- The synthesized notebook filename (scrape.py line 114). -/
def colabName (n : Nat) : List Char :=
  ("CS224W_Colab_").toList ++ (Nat.repr n).toList ++ (".ipynb").toList

/-- A download directive of `bulk_download`: either a raw anchor (only its
`href` matters) or an explicit `(url, filename)` pair. -/
inductive HwDirective where
  | anchor (href : List Char)
  | pair (url name : List Char)
deriving DecidableEq

/-- The homework-link scan of `process_row` (scrape.py lines 102-119): anchors
whose URL contains the colab marker are rewritten to an explicit pair when
`GID_PAT.findall` yields exactly one token (the per-row counter `colabs` names
the notebook and is then incremented); otherwise the link is dropped and its
URL reported (second component).  Non-colab anchors pass through unchanged. -/
def hwLoop : List (List Char) → Nat → List HwDirective × List (List Char)
  | [], _ => ([], [])
  | href :: rest, colabs =>
    if isSubstr colabMarker href then
      match gidFindall href with
      | [g] =>
        let out := hwLoop rest (colabs + 1)
        (HwDirective.pair (colabUrl g) (colabName colabs) :: out.1, out.2)
      | _ =>
        let out := hwLoop rest colabs
        (out.1, href :: out.2)
    else
      let out := hwLoop rest colabs
      (HwDirective.anchor href :: out.1, out.2)

end Scrape

namespace Scrape

/-! ## The download executor (`download_file`, scrape.py lines 33-50) -/

/-- The outcome of `client.get(url, follow_redirects=True)`: the final HTTP
response, or a transport-level error (DNS / connection failure), which httpx
raises as an exception that `download_file` does not catch. -/
inductive FetchOutcome where
  | resp (status : Nat) (content : List Char)
  | transportError

/-- `httpx.Response.is_success`, the condition under which `raise_for_status`
does not raise. -/
def is2xx (status : Nat) : Bool := 200 ≤ status && status < 300

/-- A destination path `to / name`: the bucket directory and the final
component (the code only ever builds destinations of this shape). -/
structure FPath where
  dir : List Char
  name : List Char
deriving DecidableEq

/-- The record of one completed `download_file` call: the source URL, the path
actually written, the bytes written, and whether an HTTP fetch was attempted. -/
structure DlRec where
  url : List Char
  dest : FPath
  content : List Char
  fetched : Bool
deriving DecidableEq

/-- The article-page pointer stub `f"#VISIT WEBPAGE:\n\n[{url}]({url})"`
(scrape.py line 37). -/
def visitStub (url : List Char) : List Char :=
  ("#VISIT WEBPAGE:\n\n[").toList ++ url ++ ("](").toList ++ url ++ (")").toList

/-- The failed-fetch pointer stub
`f"#INVALID LINK / VISIT DIRECTLY:\n\n[{url}]({url})"` (scrape.py line 45). -/
def invalidStub (url : List Char) : List Char :=
  ("#INVALID LINK / VISIT DIRECTLY:\n\n[").toList ++ url ++ ("](").toList ++ url ++ (")").toList

/-- `download_file` (scrape.py lines 33-50).  A destination whose suffix is
`.html` is not fetched: a `#VISIT WEBPAGE` stub is written under `.md` instead.
Otherwise the URL is fetched; a non-2xx final status raises
`httpx.HTTPStatusError`, which is caught and turned into an
`#INVALID LINK` stub under `.md`; a transport-level error is not caught and
escapes (`Except.error`).  On success the response bytes are written to the
requested destination, overwriting it. -/
def download_file (fetch : List Char → FetchOutcome) (url : List Char) (dest : FPath) :
    Except Unit DlRec :=
  if nameSuffix dest.name == (".html").toList then
    .ok ⟨url, ⟨dest.dir, withSuffixName dest.name ((".md").toList)⟩, visitStub url, false⟩
  else
    match fetch url with
    | .transportError => .error ()
    | .resp st content =>
      if is2xx st then .ok ⟨url, dest, content, true⟩
      else .ok ⟨url, ⟨dest.dir, withSuffixName dest.name ((".md").toList)⟩, invalidStub url, true⟩

/-! ## `bulk_download` (scrape.py lines 56-70) -/

/-- The anchor branch of `bulk_download` (lines 64-68): resolve the href
against the page base URL (the resolution itself, `urljoin(BASE_URL, href)`, is
a parameter `resolve`), take `Path(url).name` as the filename, and when
`Path(url).suffix` is empty force the destination name
`Path(urlsplit(url).path).name + ".html"`.  Returns `(url, filename)`. -/
def resolveAnchor (resolve : List Char → List Char) (href : List Char) :
    List Char × List Char :=
  let url := resolve href
  if (pyPathSuffix url).isEmpty then (url, urlPathBase url ++ (".html").toList)
  else (url, pyPathName url)

/-- The `(url, destination)` a directive is downloaded to, inside bucket
directory `toDir` (lines 60-70). -/
def linkTarget (resolve : List Char → List Char) (toDir : List Char) :
    HwDirective → List Char × FPath
  | .pair u n => (u, ⟨toDir, n⟩)
  | .anchor href =>
    let r := resolveAnchor resolve href
    (r.1, ⟨toDir, r.2⟩)

/-- One scheduling event of the sequential `async for` loop: a directive's
download starts (the `print` at scrape.py line 34) or finishes (its file write
completes). -/
inductive Ev where
  | start (url : List Char) (dest : FPath)
  | finish (url : List Char) (dest : FPath)
deriving DecidableEq

/-- The result of one `bulk_download` call: the download records in order, the
scheduling trace, and whether the bucket directory was created (the loop body
ensures it exists before each download, so it is created exactly when the
directive list is nonempty). -/
structure BulkOut where
  recs : List DlRec
  trace : List Ev
  dirCreated : Bool
deriving DecidableEq

/-- `bulk_download` (scrape.py lines 56-70).  The `async for` loop awaits each
`download_file` before moving to the next directive, so the trace of each
directive is `[start, finish]`, concatenated in list order; a transport-level
error aborts the remainder of the loop and escapes. -/
def bulk_download (fetch : List Char → FetchOutcome) (resolve : List Char → List Char) :
    List HwDirective → List Char → Except Unit BulkOut
  | [], _ => .ok ⟨[], [], false⟩
  | l :: rest, toDir =>
    let t := linkTarget resolve toDir l
    match download_file fetch t.1 t.2 with
    | .error e => .error e
    | .ok rec =>
      match bulk_download fetch resolve rest toDir with
      | .error e => .error e
      | .ok b => .ok ⟨rec :: b.recs, Ev.start t.1 t.2 :: Ev.finish t.1 t.2 :: b.trace, true⟩

end Scrape

namespace Scrape

/-! ## `process_row` (scrape.py lines 72-124) -/

/-- One `<td>` cell of a schedule row: its text (`get_text(strip=True)`) and
the `href`s of its anchors (`find_all('a', href=True)`), in document order. -/
structure Cell where
  text : List Char
  hrefs : List (List Char)
deriving DecidableEq

/-- The row directory `outdir / "course" / Path(description)` (line 84), with
the description already slugged. -/
def rowDir (outdir : List Char) (text : List Char) : List Char :=
  outdir ++ ("/course/").toList ++ slug text

/-- The slide directives: every anchor of `cells[1]` (line 90). -/
def slidesLinksOf (c1 : Cell) : List HwDirective := c1.hrefs.map HwDirective.anchor

/-- The reading directives: every anchor of `cells[2]` when that cell exists
(line 95).  `rest` is the cell list from index 2 on. -/
def readingLinksOf (rest : List Cell) : List HwDirective :=
  (match rest with
   | c2 :: _ => c2.hrefs
   | [] => []).map HwDirective.anchor

/-- The homework hrefs: every anchor of `cells[3]` when that cell exists
(line 100). -/
def eventLinksOf (rest : List Cell) : List (List Char) :=
  match rest with
  | _ :: c3 :: _ => c3.hrefs
  | _ => []

/-- The homework directives after the colab scan, with the per-row counter
starting at 0 (lines 102-119). -/
def hwDirectivesOf (rest : List Cell) : List HwDirective :=
  (hwLoop (eventLinksOf rest) 0).1

/-- The outcome of one fully processed row: the row directory, every download
record (slides, then reading, then homework), the scheduling trace, and
whether the row directory still exists afterwards (lines 122-124 remove it
when `iterdir()` lists no entry; its only possible entries are the bucket
directories this row created). -/
structure RowOut where
  dir : List Char
  recs : List DlRec
  trace : List Ev
  dirExistsAfter : Bool

/-- `process_row` (scrape.py lines 72-124).  Rows with fewer than two cells
are ignored (`.ok none`).  Otherwise the three buckets are awaited in
sequence — slides, reading, homework — each via `bulk_download`; a
transport-level error escapes.  Afterwards the row directory is removed when
empty. -/
def process_row (fetch : List Char → FetchOutcome) (resolve : List Char → List Char)
    (cells : List Cell) (outdir : List Char) : Except Unit (Option RowOut) :=
  match cells with
  | _ :: c1 :: rest =>
    let d := rowDir outdir c1.text
    match bulk_download fetch resolve (slidesLinksOf c1) (d ++ ("/slides").toList) with
    | .error e => .error e
    | .ok s =>
      match bulk_download fetch resolve (readingLinksOf rest) (d ++ ("/reading").toList) with
      | .error e => .error e
      | .ok r =>
        match bulk_download fetch resolve (hwDirectivesOf rest) (d ++ ("/homework").toList) with
        | .error e => .error e
        | .ok hw =>
          .ok (some ⟨d, s.recs ++ r.recs ++ hw.recs, s.trace ++ r.trace ++ hw.trace,
                     s.dirCreated || r.dirCreated || hw.dirCreated⟩)
  | _ => .ok none

/-- The whole job over the parsed schedule rows (scrape.py line 140): every
row is processed against the same fetcher and the writes are collected.  The
rows run under `asyncio.gather`; since each row writes only beneath its own
row directory, the collected writes are modelled in row order. -/
def runJob (fetch : List Char → FetchOutcome) (resolve : List Char → List Char)
    (rows : List (List Cell)) (outdir : List Char) : Except Unit (List DlRec) :=
  match rows with
  | [] => .ok []
  | r :: rest =>
    match process_row fetch resolve r outdir with
    | .error e => .error e
    | .ok out =>
      match runJob fetch resolve rest outdir with
      | .error e => .error e
      | .ok tail =>
        .ok ((match out with
              | some o => o.recs
              | none => []) ++ tail)

/-! ## File states -/

/-- The downloadable file state: contents by destination path. -/
def FS : Type := FPath → Option (List Char)

/-- Applying one write: `aiofiles.open(dest, 'wb')` truncates, so the write
replaces any previous content. -/
def applyRec (fs : FS) (r : DlRec) : FS :=
  fun p => if p = r.dest then some r.content else fs p

/-- Applying a run's writes in order. -/
def applyRecs (fs : FS) (rs : List DlRec) : FS := rs.foldl applyRec fs

/-- A whole run as a file-state transformer: collect the job's writes and
apply them. -/
def runJobFS (fetch : List Char → FetchOutcome) (resolve : List Char → List Char)
    (rows : List (List Cell)) (outdir : List Char) (fs : FS) : Except Unit FS :=
  match runJob fetch resolve rows outdir with
  | .error e => .error e
  | .ok recs => .ok (applyRecs fs recs)

/-! ## `find_root` (scrape.py lines 22-26)

A directory is modelled as its component list in reverse order (deepest
component first), so `Path.parent` is `List.tail` and the filesystem root is
`[]`; `fs p` tells whether `p / "pyproject.toml"` exists.  At the filesystem
root, `Path.parent` returns the root itself, so when no ancestor carries the
marker the Python recursion calls itself forever on the root; the model
returns `none` for that diverging case. -/

/-- `find_root`: walk upward until the marker file exists; `none` models the
nonterminating recursion at the filesystem root. -/
def find_root (fs : List String → Bool) : List String → Option (List String)
  | [] => if fs [] then some [] else none
  | p :: ps => if fs (p :: ps) then some (p :: ps) else find_root fs ps

/-- The ancestors of a path (itself included, down to the root `[]`). -/
def ancestors : List String → List (List String)
  | [] => [[]]
  | p :: ps => (p :: ps) :: ancestors ps

end Scrape

namespace Scrape

/-! ## Derived vocabulary used by the statements -/

/-- The colab id token of a homework href, when the href contains the marker
and `GID_PAT.findall` yields exactly one token. -/
def qualTok (h : List Char) : Option (List Char) :=
  if isSubstr colabMarker h then
    match gidFindall h with
    | [g] => some g
    | _ => none
  else none

/-- A homework href the scan reports and drops: it contains the marker but
does not yield exactly one id token. -/
def isAnomalous (h : List Char) : Bool :=
  isSubstr colabMarker h && !((gidFindall h).length == 1)

/-- The `(url, name)` pairs the spec prescribes for a token list, numbering
the notebooks consecutively from `c`. -/
def colabPairsSpec : List (List Char) → Nat → List (List Char × List Char)
  | [], _ => []
  | t :: ts, c => (colabUrl t, colabName c) :: colabPairsSpec ts (c + 1)

/-- The explicit `(url, name)` pairs among a directive list, in order. -/
def pairsOf (ds : List HwDirective) : List (List Char × List Char) :=
  ds.filterMap fun d =>
    match d with
    | .pair u n => some (u, n)
    | .anchor _ => none

/-- The anchor hrefs among a directive list, in order. -/
def anchorsOf (ds : List HwDirective) : List (List Char) :=
  ds.filterMap fun d =>
    match d with
    | .anchor h => some h
    | .pair _ _ => none

/-- The strictly sequential trace over resolved `(url, dest)` items: each
directive's `start` is immediately followed by its own `finish`. -/
def seqTraceOf (items : List (List Char × FPath)) : List Ev :=
  items.flatMap fun p => [Ev.start p.1 p.2, Ev.finish p.1 p.2]

/-- The resolved `(url, dest)` items of the slides bucket of a row. -/
def slidesItemsOf (resolve : List Char → List Char) (cells : List Cell)
    (outdir : List Char) : List (List Char × FPath) :=
  match cells with
  | _ :: c1 :: _ =>
    (slidesLinksOf c1).map (linkTarget resolve (rowDir outdir c1.text ++ ("/slides").toList))
  | _ => []

/-- The resolved `(url, dest)` items of the reading bucket of a row. -/
def readingItemsOf (resolve : List Char → List Char) (cells : List Cell)
    (outdir : List Char) : List (List Char × FPath) :=
  match cells with
  | _ :: c1 :: rest =>
    (readingLinksOf rest).map (linkTarget resolve (rowDir outdir c1.text ++ ("/reading").toList))
  | _ => []

/-- The resolved `(url, dest)` items of the homework bucket of a row. -/
def hwItemsOf (resolve : List Char → List Char) (cells : List Cell)
    (outdir : List Char) : List (List Char × FPath) :=
  match cells with
  | _ :: c1 :: rest =>
    (hwDirectivesOf rest).map (linkTarget resolve (rowDir outdir c1.text ++ ("/homework").toList))
  | _ => []

/-- Is this the `start` event of the directive with source URL `u`? -/
def evIsStart (u : List Char) : Ev → Bool
  | .start u2 _ => u2 == u
  | .finish _ _ => false

/-- Is this the `finish` event of the directive with source URL `u`? -/
def evIsFinish (u : List Char) : Ev → Bool
  | .finish u2 _ => u2 == u
  | .start _ _ => false

/-- Modelled from the spec: "within a bucket all download directives are
dispatched concurrently with no ordering guarantee".  In an asynchronous
fan-out (an `asyncio.gather` over the bucket, each download awaiting its
request), every directive is dispatched — its `start` event occurs — before
any other directive of the bucket completes.  `us` lists the bucket's source
URLs. -/
def specConcurrentDispatch (us : List (List Char)) (t : List Ev) : Bool :=
  us.all fun ui =>
    us.all fun uj => (ui == uj) || t.findIdx (evIsStart uj) < t.findIdx (evIsFinish ui)

/-- The trace of a `bulk_download` outcome (empty on a transport error). -/
def traceOf (e : Except Unit BulkOut) : List Ev :=
  match e with
  | .ok b => b.trace
  | .error _ => []

/-- The record of a `download_file` outcome (a sentinel on a transport
error). -/
def recOf (e : Except Unit DlRec) : DlRec :=
  match e with
  | .ok r => r
  | .error _ => ⟨[], ⟨[], []⟩, [], true⟩

/-- The content a run leaves at `p` considering only its own writes: the last
write to `p`, when any. -/
def lastWrite (rs : List DlRec) (p : FPath) : Option (List Char) :=
  match rs with
  | [] => none
  | r :: rest =>
    match lastWrite rest p with
    | some c => some c
    | none => if p = r.dest then some r.content else none

/-! ## Concrete inputs used by the closed statements -/

/-- A fetcher whose every response is `200 OK`. -/
def fetchOK : List Char → FetchOutcome := fun _ => .resp 200 (("ok").toList)

/-- A fetcher whose every response is `404 Not Found`. -/
def fetch404 : List Char → FetchOutcome := fun _ => .resp 404 []

end Scrape

namespace Scrape

/-! ## Concrete inputs used by the closed statements -/

/-- The probe showing slug derivation is not idempotent in general. -/
def probeDescription : List Char := (" 3. x").toList

/-- A colab URL whose id token is valid but whose query value is a second
26-character `[\w-]` run. -/
def twoTokenUrl : List Char :=
  ("https://colab.research.google.com/drive/abcdefghijklmnopqrstuvwxyz12?authuser=ABCDEFGHIJKLMNOPQRSTUVWXYZ01").toList

/-- A concrete bucket directory. -/
def bucketDirE : List Char := ("/r/slides").toList

/-- First explicit directive of the two-directive bucket. -/
def pairOneE : HwDirective := .pair (("https://h/one.pdf").toList) (("one.pdf").toList)

/-- Second explicit directive of the two-directive bucket. -/
def pairTwoE : HwDirective := .pair (("https://h/two.pdf").toList) (("two.pdf").toList)

/-- An extensionless article URL. -/
def articleUrlE : List Char := ("https://h/article").toList

/-- A URL whose path has no extension but whose query holds a dot. -/
def queryUrlE : List Char := ("https://h/paper?v=1.2").toList

/-- A URL whose path basename is empty. -/
def bareHostUrlE : List Char := ("https://h/").toList

/-- A two-cell row with one slide link. -/
def rowCellsE : List Cell := [⟨[], []⟩, ⟨("T").toList, [("https://h/a.pdf").toList]⟩]

/-- A two-cell row with no links at all. -/
def emptyRowCellsE : List Cell := [⟨[], []⟩, ⟨("T").toList, []⟩]

/-- A concrete output root. -/
def outdirE : List Char := ("/r").toList

/-- The empty file state. -/
def fsEmpty : FS := fun _ => none

/-- A one-row job. -/
def jobRowsE : List (List Cell) := [rowCellsE]

/-- The writes of the concrete job. -/
def jobRecsE : List DlRec :=
  match runJob fetchOK id jobRowsE outdirE with
  | .ok rs => rs
  | .error _ => []

/-- The file state the concrete job leaves behind. -/
def jobFS1E : FS := applyRecs fsEmpty jobRecsE

/-- The row outcome of the concrete one-link row. -/
def c2RowOutE : RowOut :=
  match process_row fetchOK id rowCellsE outdirE with
  | .ok (some o) => o
  | _ => ⟨[], [], [], false⟩

/-- The row outcome of the concrete linkless row. -/
def c6RowOutE : RowOut :=
  match process_row fetchOK id emptyRowCellsE outdirE with
  | .ok (some o) => o
  | _ => ⟨[], [], [], true⟩

/-- The marker function of the concrete `find_root` run: only the filesystem
root carries `pyproject.toml`. -/
def rootFsE : List String → Bool := fun q => q.isEmpty

/-- A concrete starting directory for `find_root` (reversed components). -/
def rootPathE : List String := ["scrape", "repo"]

end Scrape

namespace Scrape

/-! ## Helper lemmas -/

theorem lastDotSplit_eq_none {ext : List Char} (h : '.' ∉ ext) :
    lastDotSplit ext = none := by
  induction ext with
  | nil => rfl
  | cons c cs ih =>
    have hc : ¬c = '.' := fun hc => h (hc ▸ List.mem_cons_self c cs)
    have hcs : '.' ∉ cs := fun m => h (List.mem_cons_of_mem _ m)
    simp [lastDotSplit, ih hcs, hc]

theorem lastDotSplit_append {ext : List Char} (h : '.' ∉ ext) (b : List Char) :
    lastDotSplit (b ++ '.' :: ext) = some (b, '.' :: ext) := by
  induction b with
  | nil => simp [lastDotSplit, lastDotSplit_eq_none h]
  | cons c cs ih => simp [lastDotSplit, ih]

theorem nameSuffix_append {b ext : List Char} (hb : b ≠ []) (he : ext ≠ [])
    (hd : '.' ∉ ext) : nameSuffix (b ++ '.' :: ext) = '.' :: ext := by
  simp [nameSuffix, lastDotSplit_append hd b, hb, he, Nat.succ_le_succ, List.length_pos]

theorem withSuffixName_append {b ext : List Char} (hb : b ≠ []) (he : ext ≠ [])
    (hd : '.' ∉ ext) (suf : List Char) :
    withSuffixName (b ++ '.' :: ext) suf = b ++ suf := by
  simp [withSuffixName, lastDotSplit_append hd b, hb, he, List.length_pos]

theorem bulk_download_ok_nil {fetch : List Char → FetchOutcome}
    {resolve : List Char → List Char} {links : List HwDirective} {toDir : List Char}
    {b : BulkOut} (h : bulk_download fetch resolve links toDir = .ok b)
    (hr : b.recs = []) : links = [] ∧ b.dirCreated = false := by
  cases links with
  | nil =>
    simp only [bulk_download] at h
    cases h
    exact ⟨rfl, rfl⟩
  | cons l rest =>
    simp only [bulk_download] at h
    cases hd : download_file fetch (linkTarget resolve toDir l).1 (linkTarget resolve toDir l).2 with
    | error e => rw [hd] at h; cases h
    | ok rec =>
      rw [hd] at h
      cases hb : bulk_download fetch resolve rest toDir with
      | error e => rw [hb] at h; cases h
      | ok b2 =>
        rw [hb] at h
        cases h
        cases hr

theorem bulk_download_trace {fetch : List Char → FetchOutcome}
    {resolve : List Char → List Char} {links : List HwDirective} {toDir : List Char}
    {b : BulkOut} (h : bulk_download fetch resolve links toDir = .ok b) :
    b.trace = seqTraceOf (links.map (linkTarget resolve toDir)) := by
  induction links generalizing b with
  | nil =>
    simp only [bulk_download] at h
    cases h
    rfl
  | cons l rest ih =>
    simp only [bulk_download] at h
    cases hd : download_file fetch (linkTarget resolve toDir l).1 (linkTarget resolve toDir l).2 with
    | error e => rw [hd] at h; cases h
    | ok rec =>
      rw [hd] at h
      cases hb : bulk_download fetch resolve rest toDir with
      | error e => rw [hb] at h; cases h
      | ok b2 =>
        rw [hb] at h
        cases h
        simp [seqTraceOf, ih hb]

theorem hwLoop_char (hrefs : List (List Char)) (c : Nat) :
    pairsOf (hwLoop hrefs c).1 = colabPairsSpec (hrefs.filterMap qualTok) c ∧
      anchorsOf (hwLoop hrefs c).1 = hrefs.filter (fun h => !isSubstr colabMarker h) ∧
      (hwLoop hrefs c).2 = hrefs.filter isAnomalous := by
  induction hrefs generalizing c with
  | nil => exact ⟨rfl, rfl, rfl⟩
  | cons href rest ih =>
    by_cases hm : isSubstr colabMarker href
    · cases hg : gidFindall href with
      | nil =>
        have ha : isAnomalous href = true := by simp [isAnomalous, hm, hg]
        have hq : qualTok href = none := by simp [qualTok, hm, hg]
        simpa [hwLoop, hm, hg, pairsOf, anchorsOf, qualTok, List.filterMap_cons, hq, ha,
          List.filter_cons] using ih c
      | cons g gs =>
        cases gs with
        | nil =>
          have ha : isAnomalous href = false := by simp [isAnomalous, hm, hg]
          have hq : qualTok href = some g := by simp [qualTok, hm, hg]
          simpa [hwLoop, hm, hg, pairsOf, anchorsOf, List.filterMap_cons, hq, ha,
            List.filter_cons, colabPairsSpec] using ih (c + 1)
        | cons g2 gs2 =>
          have ha : isAnomalous href = true := by simp [isAnomalous, hm, hg]
          have hq : qualTok href = none := by simp [qualTok, hm, hg]
          simpa [hwLoop, hm, hg, pairsOf, anchorsOf, List.filterMap_cons, hq, ha,
            List.filter_cons] using ih c
    · have ha : isAnomalous href = false := by simp [isAnomalous, hm]
      have hq : qualTok href = none := by simp [qualTok, hm]
      simpa [hwLoop, hm, pairsOf, anchorsOf, List.filterMap_cons, hq, ha,
        List.filter_cons] using ih c

theorem applyRecs_lastWrite (rs : List DlRec) (fs : FS) (p : FPath) :
    applyRecs fs rs p =
      match lastWrite rs p with
      | some c => some c
      | none => fs p := by
  induction rs generalizing fs with
  | nil => rfl
  | cons r rest ih =>
    show applyRecs (applyRec fs r) rest p = _
    rw [ih]
    simp only [lastWrite]
    cases lastWrite rest p with
    | some c => rfl
    | none =>
      by_cases hp : p = r.dest <;> simp [applyRec, hp]

theorem process_row_ok_some {fetch : List Char → FetchOutcome}
    {resolve : List Char → List Char} {cells : List Cell} {outdir : List Char}
    {out : RowOut} (h : process_row fetch resolve cells outdir = .ok (some out)) :
    ∃ c0 c1 rest s r hw, cells = c0 :: c1 :: rest ∧
      bulk_download fetch resolve (slidesLinksOf c1)
        (rowDir outdir c1.text ++ ("/slides").toList) = .ok s ∧
      bulk_download fetch resolve (readingLinksOf rest)
        (rowDir outdir c1.text ++ ("/reading").toList) = .ok r ∧
      bulk_download fetch resolve (hwDirectivesOf rest)
        (rowDir outdir c1.text ++ ("/homework").toList) = .ok hw ∧
      out = ⟨rowDir outdir c1.text, s.recs ++ r.recs ++ hw.recs,
             s.trace ++ r.trace ++ hw.trace,
             s.dirCreated || r.dirCreated || hw.dirCreated⟩ := by
  match cells with
  | [] => exact absurd h (by simp [process_row])
  | [c0] => exact absurd h (by simp [process_row])
  | c0 :: c1 :: rest =>
    simp only [process_row] at h
    cases hs : bulk_download fetch resolve (slidesLinksOf c1)
        (rowDir outdir c1.text ++ ("/slides").toList) with
    | error e => rw [hs] at h; cases h
    | ok s =>
      rw [hs] at h
      cases hr : bulk_download fetch resolve (readingLinksOf rest)
          (rowDir outdir c1.text ++ ("/reading").toList) with
      | error e => rw [hr] at h; cases h
      | ok r =>
        rw [hr] at h
        cases hh : bulk_download fetch resolve (hwDirectivesOf rest)
            (rowDir outdir c1.text ++ ("/homework").toList) with
        | error e => rw [hh] at h; cases h
        | ok hw =>
          rw [hh] at h
          cases h
          exact ⟨c0, c1, rest, s, r, hw, rfl, hs, hr, hh, rfl⟩

end Scrape

namespace Scrape

/-! ## Claim C1 -/

/-- Claim C1 counterexample: on the spec's example description the derived
slug is not `"3-traditional_methods_for_ml_on_graphs"` (removing `[video]`
leaves both the space before it and the newline, so a double underscore
appears), and the derivation is not idempotent in general (witnessed by
`" 3. x"`, where the ordinal rewrite only fires on the second pass). -/
theorem c1_counterexample :
    slug demoDescription ≠ ("3-traditional_methods_for_ml_on_graphs").toList ∧
      slug (slug probeDescription) ≠ slug probeDescription :=
  ⟨by decide, by decide⟩

/-- Claim C1 (amended): slug derivation is a pure function of the description
(hence deterministic); on the description
`"3. Traditional Methods [video]\nfor ML on Graphs"` it yields
`"3-traditional_methods__for_ml_on_graphs"` — double underscore — and it is
idempotent on this output, though not on every string. -/
theorem c1_slug_demo :
    slug demoDescription = ("3-traditional_methods__for_ml_on_graphs").toList ∧
      slug (slug demoDescription) = slug demoDescription :=
  ⟨by decide, by decide⟩

/-! ## Claim C4 -/

/-- Claim C4: scanning a row's homework links with the counter at 0, the
rewritten pairs are exactly one per marker-bearing link with exactly one
`GID_PAT` token, in encounter order, with URL
`https://docs.google.com/uc?export=download&id=<token>` and filename
`CS224W_Colab_<n>.ipynb` numbered consecutively from 0; marker-bearing links
with zero or several tokens are dropped from the batch and reported, the rest
of the row continuing; non-marker links pass through unchanged. -/
theorem c4_colab_rewrite (hrefs : List (List Char)) :
    pairsOf (hwLoop hrefs 0).1 = colabPairsSpec (hrefs.filterMap qualTok) 0 ∧
      (hwLoop hrefs 0).2 = hrefs.filter isAnomalous ∧
      anchorsOf (hwLoop hrefs 0).1 = hrefs.filter (fun h => !isSubstr colabMarker h) :=
  ⟨(hwLoop_char hrefs 0).1, (hwLoop_char hrefs 0).2.2, (hwLoop_char hrefs 0).2.1⟩

/-! ## Claim C5 -/

/-- Claim C5: when the fetch of a non-`.html` destination returns a non-2xx
final status, `download_file` returns normally (no exception escapes) and the
artifact is the `#INVALID LINK / VISIT DIRECTLY:` markdown stub, written under
the destination name with its suffix replaced by `.md`. -/
theorem c5_invalid_stub (url toDir name content : List Char) (st : Nat)
    (hn : nameSuffix name ≠ (".html").toList) (hst : is2xx st = false) :
    download_file (fun _ => .resp st content) url ⟨toDir, name⟩ =
      .ok ⟨url, ⟨toDir, withSuffixName name ((".md").toList)⟩, invalidStub url, true⟩ := by
  simp only [ne_eq] at hn
  simp at hn
  simp [download_file, hn, hst]

/-- Claim C5 witness: a 404 on `x.pdf` yields the invalid-link stub at
`x.md`. -/
theorem c5_witness :
    download_file (fun _ => .resp 404 []) (("https://h/x.pdf").toList)
        ⟨bucketDirE, ("x.pdf").toList⟩ =
      .ok ⟨("https://h/x.pdf").toList, ⟨bucketDirE, ("x.md").toList⟩,
           invalidStub (("https://h/x.pdf").toList), true⟩ :=
  c5_invalid_stub (("https://h/x.pdf").toList) bucketDirE (("x.pdf").toList) [] 404
    (by decide) (by decide)

/-! ## Claim C9 -/

/-- Claim C9: `GID_PAT` is matched against the whole URL, so a marker-bearing
homework link whose URL contains two or more 26-plus-character `[\w-]` runs is
skipped (dropped from the directives, reported as an anomaly) even when one of
the runs is a valid id. -/
theorem c9_whole_url_scan (href : List Char) (rest : List (List Char)) (c : Nat)
    (hm : isSubstr colabMarker href = true) (h2 : 2 ≤ (gidFindall href).length) :
    hwLoop (href :: rest) c = ((hwLoop rest c).1, href :: (hwLoop rest c).2) := by
  cases hg : gidFindall href with
  | nil => rw [hg] at h2; simp at h2
  | cons g gs =>
    cases gs with
    | nil => rw [hg] at h2; simp at h2
    | cons g2 gs2 => simp [hwLoop, hm, hg]

/-- Claim C9 witness: a colab URL with a valid 28-character drive id and a
28-character query value yields two tokens and is dropped and reported. -/
theorem c9_witness : hwLoop [twoTokenUrl] 0 = ([], [twoTokenUrl]) :=
  (c9_whole_url_scan twoTokenUrl [] 0 (by decide) (by decide)).trans (by decide)

/-! ## Claim C10 -/

/-- Claim C10 counterexample: for a destination already named `*.md`, a failed
fetch writes the stub exactly at the originally intended destination path, so
that path is created by the directive. -/
theorem c10_counterexample :
    recOf (download_file fetch404 (("https://h/notes.md").toList)
        ⟨bucketDirE, ("notes.md").toList⟩) =
      ⟨("https://h/notes.md").toList, ⟨bucketDirE, ("notes.md").toList⟩,
       invalidStub (("https://h/notes.md").toList), true⟩ := by
  decide

/-- Claim C10 (amended): on a non-2xx fetch for destination `stem.ext`
(`ext` neither empty nor `html`, dot-free, `stem` nonempty), the stub is
written to `stem.md` in the same bucket; when `ext` is not `md`, that stub
path differs from the original destination, which is therefore not created by
the directive (when `ext = md` the stub lands exactly on the original
path). -/
theorem c10_stub_path (url toDir stem ext content : List Char) (st : Nat)
    (hstem : stem ≠ []) (hext : ext ≠ []) (hdot : '.' ∉ ext)
    (hhtml : ext ≠ ("html").toList) (hst : is2xx st = false) :
    download_file (fun _ => .resp st content) url ⟨toDir, stem ++ '.' :: ext⟩ =
      .ok ⟨url, ⟨toDir, stem ++ (".md").toList⟩, invalidStub url, true⟩ ∧
      (ext ≠ ("md").toList → stem ++ (".md").toList ≠ stem ++ '.' :: ext) := by
  have hns := nameSuffix_append hstem hext hdot
  have hws := withSuffixName_append hstem hext hdot ((".md").toList)
  have hneq : ¬nameSuffix (stem ++ '.' :: ext) = (".html").toList := by
    rw [hns]
    intro hEq
    apply hhtml
    simp at hEq
    simpa using hEq
  simp at hws hneq
  constructor
  · simp [download_file, hneq, hst, hws]
  · intro hmd hEq
    apply hmd
    have h3 : (".md").toList = '.' :: ext := List.append_cancel_left hEq
    simp at h3
    simpa using h3.symm

/-- Claim C10 witness: a 404 on `p.pdf` writes the stub to `p.md`, a path
different from `p.pdf`. -/
theorem c10_witness :
    download_file (fun _ => .resp 404 []) (("https://h/p.pdf").toList)
        ⟨bucketDirE, ("p").toList ++ '.' :: ("pdf").toList⟩ =
      .ok ⟨("https://h/p.pdf").toList, ⟨bucketDirE, ("p").toList ++ (".md").toList⟩,
           invalidStub (("https://h/p.pdf").toList), true⟩ ∧
      (("pdf").toList ≠ ("md").toList →
        ("p").toList ++ (".md").toList ≠ ("p").toList ++ '.' :: ("pdf").toList) :=
  c10_stub_path (("https://h/p.pdf").toList) bucketDirE (("p").toList) (("pdf").toList) [] 404
    (by decide) (by decide) (by decide) (by decide) (by decide)

end Scrape

namespace Scrape

/-! ## Claim C3 -/

/-- Claim C3 counterexample.  First, the article stub has three lines (header,
blank separator, link), not exactly two.  Second, the `.html`-forcing test is
`Path(url).suffix` on the whole URL, not on the URL path: for
`https://h/paper?v=1.2` the URL path `/paper` has no extension, yet the whole
URL carries suffix `.2`, so an HTTP fetch is attempted.  Third, for
`https://h/` the URL-path basename is empty, the forced name is the bare
`.html` whose pathlib suffix is empty, and again a fetch is attempted. -/
theorem c3_counterexample :
    (splitCh '\n' (recOf (download_file fetchOK articleUrlE
        ⟨bucketDirE, (resolveAnchor id articleUrlE).2⟩)).content).length = 3 ∧
      nameSuffix (urlPathBase queryUrlE) = [] ∧
      (recOf (download_file fetchOK (resolveAnchor id queryUrlE).1
        ⟨bucketDirE, (resolveAnchor id queryUrlE).2⟩)).fetched = true ∧
      nameSuffix (urlPathBase bareHostUrlE) = [] ∧
      (recOf (download_file fetchOK (resolveAnchor id bareHostUrlE).1
        ⟨bucketDirE, (resolveAnchor id bareHostUrlE).2⟩)).fetched = true :=
  ⟨by decide, by decide, by decide, by decide, by decide⟩

/-- Claim C3 (amended): for an anchor whose resolved URL, taken as a whole,
has an empty pathlib suffix, and whose URL-path basename is nonempty, the
directive's destination is that basename plus `.html`; `download_file` then
attempts no HTTP fetch and writes the `#VISIT WEBPAGE:` markdown stub (header
line, blank line, link line) to the basename plus `.md`. -/
theorem c3_article_stub (fetch : List Char → FetchOutcome) (resolve : List Char → List Char)
    (toDir href : List Char)
    (hsuf : pyPathSuffix (resolve href) = [])
    (hbase : urlPathBase (resolve href) ≠ []) :
    linkTarget resolve toDir (.anchor href) =
      (resolve href, ⟨toDir, urlPathBase (resolve href) ++ (".html").toList⟩) ∧
      download_file fetch (resolve href)
          ⟨toDir, urlPathBase (resolve href) ++ (".html").toList⟩ =
        .ok ⟨resolve href, ⟨toDir, urlPathBase (resolve href) ++ (".md").toList⟩,
             visitStub (resolve href), false⟩ := by
  have e1 : (".html").toList = '.' :: ("html").toList := rfl
  have hns : nameSuffix (urlPathBase (resolve href) ++ (".html").toList) = (".html").toList := by
    rw [e1]
    exact nameSuffix_append hbase (by decide) (by decide)
  have hws : withSuffixName (urlPathBase (resolve href) ++ (".html").toList) ((".md").toList) =
      urlPathBase (resolve href) ++ (".md").toList := by
    rw [e1]
    exact withSuffixName_append hbase (by decide) (by decide) ((".md").toList)
  constructor
  · simp [linkTarget, resolveAnchor, hsuf]
  · simp only [download_file, hns, hws]
    simp

/-- Claim C3 witness: the anchor `https://h/article` is turned into the
`article.md` visit-webpage stub with no fetch. -/
theorem c3_witness :
    linkTarget id bucketDirE (.anchor articleUrlE) =
      (articleUrlE, ⟨bucketDirE, urlPathBase articleUrlE ++ (".html").toList⟩) ∧
      download_file fetchOK articleUrlE
          ⟨bucketDirE, urlPathBase articleUrlE ++ (".html").toList⟩ =
        .ok ⟨articleUrlE, ⟨bucketDirE, urlPathBase articleUrlE ++ (".md").toList⟩,
             visitStub articleUrlE, false⟩ :=
  c3_article_stub fetchOK id bucketDirE articleUrlE (by decide) (by decide)

end Scrape

namespace Scrape

/-! ## Claim C2 -/

/-- Claim C2 counterexample: in a two-directive bucket the loop's trace is
`start 1, finish 1, start 2, finish 2` — the second directive is not even
dispatched until the first download has completed — so the bucket's directives
are not dispatched concurrently. -/
theorem c2_counterexample :
    specConcurrentDispatch [("https://h/one.pdf").toList, ("https://h/two.pdf").toList]
      (traceOf (bulk_download fetchOK id [pairOneE, pairTwoE] bucketDirE)) = false := by
  decide

/-- Claim C2 (amended): the three buckets of a row are awaited sequentially in
the order slides, reading, homework, and within each bucket the directives are
also processed sequentially in list order — each directive's `start` is
immediately followed by its own `finish` before the next directive begins. -/
theorem c2_sequential (fetch : List Char → FetchOutcome) (resolve : List Char → List Char)
    (cells : List Cell) (outdir : List Char) (out : RowOut)
    (h : process_row fetch resolve cells outdir = .ok (some out)) :
    out.trace = seqTraceOf (slidesItemsOf resolve cells outdir) ++
      seqTraceOf (readingItemsOf resolve cells outdir) ++
      seqTraceOf (hwItemsOf resolve cells outdir) := by
  obtain ⟨c0, c1, rest, s, r, hw, hc, hs, hr, hh, hout⟩ := process_row_ok_some h
  subst hc hout
  simp [slidesItemsOf, readingItemsOf, hwItemsOf, bulk_download_trace hs,
    bulk_download_trace hr, bulk_download_trace hh]

/-- Claim C2 witness: the concrete one-slide-link row produces exactly the
sequential bucket-ordered trace. -/
theorem c2_witness :
    c2RowOutE.trace = seqTraceOf (slidesItemsOf id rowCellsE outdirE) ++
      seqTraceOf (readingItemsOf id rowCellsE outdirE) ++
      seqTraceOf (hwItemsOf id rowCellsE outdirE) :=
  c2_sequential fetchOK id rowCellsE outdirE c2RowOutE rfl

/-! ## Claim C6 -/

/-- Claim C6: when a fully processed row (no transport-level failure) produced
zero files, its row directory does not exist afterwards: no download means no
bucket directory was created, `iterdir()` lists nothing, and the directory is
removed. -/
theorem c6_empty_row_dir_removed (fetch : List Char → FetchOutcome)
    (resolve : List Char → List Char) (cells : List Cell) (outdir : List Char)
    (out : RowOut) (h : process_row fetch resolve cells outdir = .ok (some out))
    (hrecs : out.recs = []) : out.dirExistsAfter = false := by
  obtain ⟨c0, c1, rest, s, r, hw, hc, hs, hr, hh, hout⟩ := process_row_ok_some h
  subst hout
  obtain ⟨hs0, hr0, hh0⟩ : s.recs = [] ∧ r.recs = [] ∧ hw.recs = [] := by
    simpa [List.append_eq_nil] using hrecs
  simp [(bulk_download_ok_nil hs hs0).2, (bulk_download_ok_nil hr hr0).2,
    (bulk_download_ok_nil hh hh0).2]

/-- Claim C6 witness: the concrete linkless row leaves no directory behind. -/
theorem c6_witness : c6RowOutE.dirExistsAfter = false :=
  c6_empty_row_dir_removed fetchOK id emptyRowCellsE outdirE c6RowOutE rfl rfl

/-! ## Claim C7 -/

/-- Claim C7: a run of the whole job is deterministic (a pure function of the
page rows and the per-URL responses) and idempotent on the file state: when a
run from `fs` succeeds and leaves state `fs2`, re-running the job against the
unchanged rows and responses succeeds again, writes the same destination paths
with byte-identical content, and leaves `fs2` unchanged. -/
theorem c7_rerun_idempotent (fetch : List Char → FetchOutcome)
    (resolve : List Char → List Char) (rows : List (List Cell)) (outdir : List Char)
    (fs fs2 : FS) (h : runJobFS fetch resolve rows outdir fs = .ok fs2) :
    runJobFS fetch resolve rows outdir fs2 = .ok fs2 := by
  unfold runJobFS at h ⊢
  cases hr : runJob fetch resolve rows outdir with
  | error e => rw [hr] at h; cases h
  | ok recs =>
    rw [hr] at h
    cases h
    show Except.ok (applyRecs (applyRecs fs recs) recs) = Except.ok (applyRecs fs recs)
    congr 1
    funext p
    rw [applyRecs_lastWrite recs (applyRecs fs recs) p]
    cases hlw : lastWrite recs p with
    | none => rfl
    | some c => rw [applyRecs_lastWrite recs fs p, hlw]

/-- Claim C7 witness: re-running the concrete one-row job on the state it
produced reproduces that state exactly. -/
theorem c7_witness : runJobFS fetchOK id jobRowsE outdirE jobFS1E = .ok jobFS1E :=
  c7_rerun_idempotent fetchOK id jobRowsE outdirE fsEmpty jobFS1E rfl

/-! ## Claim C8 -/

/-- Claim C8: `find_root` returns a directory exactly when some ancestor of
the start (itself included, down to the filesystem root) carries
`pyproject.toml`, and any returned directory is such an ancestor; when no
ancestor carries the marker, the Python recursion never terminates, because at
the filesystem root `Path.parent` returns the root itself — the model's `none`
result. -/
theorem c8_find_root (fs : List String → Bool) (p : List String) :
    ((∃ q, find_root fs p = some q) ↔ ∃ q ∈ ancestors p, fs q = true) ∧
      ∀ q, find_root fs p = some q → fs q = true ∧ q ∈ ancestors p := by
  induction p with
  | nil =>
    by_cases hfs : fs [] = true
    · constructor
      · constructor
        · intro _
          exact ⟨[], by simp [ancestors], hfs⟩
        · intro _
          exact ⟨[], by simp [find_root, hfs]⟩
      · intro q hq
        simp [find_root, hfs] at hq
        subst hq
        exact ⟨hfs, by simp [ancestors]⟩
    · constructor
      · constructor
        · rintro ⟨q, hq⟩
          simp [find_root, hfs] at hq
        · rintro ⟨q, hmem, hfsq⟩
          simp [ancestors] at hmem
          subst hmem
          exact absurd hfsq hfs
      · intro q hq
        simp [find_root, hfs] at hq
  | cons a ps ih =>
    obtain ⟨ihA, ihB⟩ := ih
    by_cases hfs : fs (a :: ps) = true
    · constructor
      · constructor
        · intro _
          exact ⟨a :: ps, by simp [ancestors], hfs⟩
        · intro _
          exact ⟨a :: ps, by simp [find_root, hfs]⟩
      · intro q hq
        simp [find_root, hfs] at hq
        subst hq
        exact ⟨hfs, by simp [ancestors]⟩
    · constructor
      · constructor
        · rintro ⟨q, hq⟩
          simp [find_root, hfs] at hq
          obtain ⟨q2, hmem, hq2⟩ := ihA.mp ⟨q, hq⟩
          exact ⟨q2, by simp [ancestors, hmem], hq2⟩
        · rintro ⟨q, hmem, hfsq⟩
          simp [ancestors] at hmem
          cases hmem with
          | inl heq =>
            subst heq
            exact absurd hfsq hfs
          | inr hmem =>
            obtain ⟨q2, hq2⟩ := ihA.mpr ⟨q, hmem, hfsq⟩
            exact ⟨q2, by simp [find_root, hfs, hq2]⟩
      · intro q hq
        simp [find_root, hfs] at hq
        obtain ⟨h1, h2⟩ := ihB q hq
        exact ⟨h1, by simp [ancestors, h2]⟩

/-- Claim C8 witness: starting from the concrete directory whose only
marker-bearing ancestor is the filesystem root, `find_root` returns an
ancestor carrying the marker. -/
theorem c8_witness : rootFsE [] = true ∧ ([] : List String) ∈ ancestors rootPathE :=
  (c8_find_root rootFsE rootPathE).2 [] rfl

end Scrape
